import Mathlib

/-
Verification development for the ng-dragdrop drag-and-drop library.

Shallow embedding of the drag coordination engine (DragDropService in
projects/dragdrop/src/lib/dragdrop.service.ts), the draggable record
(draggable-item.ts) and the drop-target adapter (droppable.directive.ts).

Modelling decisions, stated once here:
  - Pointer coordinates and pixel dimensions are Int (MouseEvent clientX and
    clientY are integral in practice; Math.round is the identity on an
    integral model and is therefore dropped from the two places it occurs).
  - A JS field that can be undefined is an Option; assigning a possibly
    undefined value is assigning the Option.  DraggableItem.cancelled is
    Option Bool: some false is the class initializer value, none models the
    field having been assigned an undefined actual argument (falsy).
  - The browser ignores an attempt to set style.cursor to undefined, so
    restoring the cursor from a never-saved (undefined) service field leaves
    the cursor unchanged; savedCursor is Option String with that semantics.
  - DOM nodes: the original element of a record is an Elem (bounding rect
    plus class list); the cloned drag node is a GhostEl carrying the styles
    the service sets on it plus a uid standing for node identity, and the
    viewport keeps the list of uids of appended ghost nodes.
  - rxjs subscriptions are Bool flags: the sampled mousemove subscription is
    moveSubscribed (cleared by deactivate); each first()-piped one-shot
    listener is an armed flag cleared when it fires.  A mouseup inside the
    viewport bubbles, firing the viewport handler and then the window
    handler, and Ev.viewportMouseUp models exactly that sequence, while
    Ev.windowMouseUp models a mouseup outside the viewport.
  - The two Subjects are modelled by the list of Broadcast values a call
    emits, in emission order.
  - viewportMaxScrollLeft and viewportMaxScrollTop are the scroll range the
    DOM would give the viewport (scrollWidth minus clientWidth and the
    vertical analogue).  The service never reads them; they exist so that
    the claim-side notion of room to scroll can be stated.
-/

namespace DragDrop

/-- A 2-D integer point (pointer coordinates, positions, offsets). -/
structure Point where
  x : Int
  y : Int
deriving DecidableEq

/-- A bounding client rect. -/
structure Rect where
  left : Int
  top : Int
  right : Int
  bottom : Int
  width : Int
  height : Int
deriving DecidableEq

/-- The original DOM element of a draggable registration: its bounding rect
and its class list. -/
structure Elem where
  rect : Rect
  classes : List String
deriving DecidableEq

/-- The cloned drag node (the ghost): the style properties the service sets
on it, its class list, and a uid standing for DOM node identity. -/
structure GhostEl where
  uid : Nat
  left : Int
  top : Int
  width : Int
  height : Int
  visible : Bool
  classes : List String
deriving DecidableEq

/-- The DraggableItem record (draggable-item.ts).  Field names follow the
source; uid is the model-level object identity (the id field of the source
is declared but never assigned). -/
structure DraggableItem where
  uid : Nat
  el : Elem
  dragEl : Option GhostEl
  data : Nat
  draggedClass : String
  draggingClass : String
  mouseDownEvent : Point
  pos : Option Point
  grabPoint : Option Point
  startThreshold : Int
  isDragging : Bool
  cancelled : Option Bool
deriving DecidableEq

/-- Direction of a running auto-scroll timer on one axis. -/
inductive ScrollDir
  | dec
  | inc
deriving DecidableEq

/-- The DragDropService state. -/
structure EngineState where
  draggables : List DraggableItem
  lastMousePos : Option Point
  lastDisplacement : Option Point
  viewportRect : Rect
  viewportScrollLeft : Int
  viewportScrollTop : Int
  viewportMaxScrollLeft : Int
  viewportMaxScrollTop : Int
  viewportCursor : String
  savedCursor : Option String
  attachedGhosts : List Nat
  scrollXInterval : Option ScrollDir
  scrollYInterval : Option ScrollDir
  moveSubscribed : Bool
  mouseUpArmed : Bool
  mouseDownArmed : Bool
  windowMouseUpArmed : Bool
  keyDownArmed : Bool
  blurArmed : Bool
  nextUid : Nat
deriving DecidableEq

/-- An emission on one of the two service Subjects. -/
inductive Broadcast
  | dragging (d : DraggableItem)
  | dropping (d : DraggableItem)
deriving DecidableEq

/-- Split a character list at every single space, the way the JS
String.split with a one-space separator does: adjacent separators and
string edges yield empty tokens, the empty input yields one empty token. -/
def splitChars : List Char → List (List Char)
  | [] => [[]]
  | c :: cs =>
      match splitChars cs with
      | cur :: rest => if c = ' ' then [] :: cur :: rest else (c :: cur) :: rest
      | [] => [[c]]

/-- The token list of a space-separated class string (classes.split in the
source).  A structural implementation is used so that it evaluates inside
the kernel. -/
def classTokens (s : String) : List String :=
  (splitChars s.data).map (fun cs => String.mk cs)

/-- addClasses: split a space-separated class string and add each token to
the class list (classList.add is set-like); no-op on an empty string (the
falsy-argument guard). -/
def addClasses (elClasses : List String) (classes : String) : List String :=
  if classes = "" then elClasses
  else (classTokens classes).foldl
    (fun acc c => if acc.contains c then acc else acc ++ [c]) elClasses

/-- removeClasses: split a space-separated class string and remove each token
from the class list; no-op on an empty string (the falsy-argument guard). -/
def removeClasses (elClasses : List String) (classes : String) : List String :=
  if classes = "" then elClasses
  else (classTokens classes).foldl
    (fun acc c => acc.filter (fun s => !(s == c))) elClasses

/-- clearScrollIntervals: clearInterval on both axis timers. -/
def clearScrollIntervals (st : EngineState) : EngineState :=
  { st with scrollXInterval := none, scrollYInterval := none }

/-- The horizontal half of scrollViewportAsNeeded: left edge needs room
(scrollLeft greater than 0), right edge uses rightBias = 2 and no room
check. -/
def scrollX (x : Int) (st : EngineState) : EngineState :=
  if x ≤ st.viewportRect.left ∧ st.viewportScrollLeft > 0 then
    { st with scrollXInterval := some ScrollDir.dec }
  else if x ≥ st.viewportRect.right - 2 then
    { st with scrollXInterval := some ScrollDir.inc }
  else st

/-- The vertical half of scrollViewportAsNeeded: top edge needs room
(scrollTop greater than 0), bottom edge uses bottomBias = 3 and no room
check. -/
def scrollY (y : Int) (st : EngineState) : EngineState :=
  if y ≤ st.viewportRect.top ∧ st.viewportScrollTop > 0 then
    { st with scrollYInterval := some ScrollDir.dec }
  else if y ≥ st.viewportRect.bottom - 3 then
    { st with scrollYInterval := some ScrollDir.inc }
  else st

/-- scrollViewportAsNeeded: clear both timers, then decide each axis
independently against the cached viewport rect. -/
def scrollViewportAsNeeded (x y : Int) (st : EngineState) : EngineState :=
  scrollY y (scrollX x (clearScrollIntervals st))

/-- isMouseOutsideViewport: strictly outside the cached rect on any side. -/
def isMouseOutsideViewport (st : EngineState) (mouseX mouseY : Int) : Bool :=
  decide (mouseX < st.viewportRect.left) || decide (mouseX > st.viewportRect.right) ||
    decide (mouseY < st.viewportRect.top) || decide (mouseY > st.viewportRect.bottom)

/-- startThresholdPassed: non-strict comparison of the absolute displacement
from the origin mousedown against the threshold, per axis, OR. -/
def startThresholdPassed (d : DraggableItem) (x y : Int) : Bool :=
  decide (|d.mouseDownEvent.x - x| ≥ d.startThreshold) ||
    decide (|d.mouseDownEvent.y - y| ≥ d.startThreshold)

/-- createDraggableElement: initialize pos from the source rect, compute the
grab point from the origin mousedown, clone the source node (copying its
classes, then adding draggingClass), style it hidden at the source position,
and append it to the viewport.  The overlay child has no modelled effect. -/
def createDraggableElement (st : EngineState) (d : DraggableItem) :
    EngineState × DraggableItem :=
  let elRect := d.el.rect
  let pos : Point := { x := elRect.left, y := elRect.top }
  let grab : Point := { x := d.mouseDownEvent.x - pos.x, y := d.mouseDownEvent.y - pos.y }
  let gh : GhostEl :=
    { uid := st.nextUid, left := pos.x, top := pos.y, width := elRect.width,
      height := elRect.height, visible := false,
      classes := addClasses d.el.classes d.draggingClass }
  ({ st with attachedGhosts := st.attachedGhosts ++ [gh.uid], nextUid := st.nextUid + 1 },
    { d with pos := some pos, grabPoint := some grab, dragEl := some gh })

/-- beginItemDrag: no-op if already dragging; otherwise save and restyle the
viewport cursor, create the ghost, mark the record dragging, reveal the
ghost, add draggedClass to the source element and emit on the dragging
Subject. -/
def beginItemDrag (st : EngineState) (d : DraggableItem) :
    EngineState × DraggableItem × List Broadcast :=
  if d.isDragging then (st, d, [])
  else
    let st1 :=
      { st with
          savedCursor := some st.viewportCursor,
          viewportCursor := "-webkit-grabbing" }
    let res := createDraggableElement st1 d
    let d2 :=
      { res.2 with
          isDragging := true,
          dragEl := res.2.dragEl.map (fun gh => { gh with visible := true }),
          el := { res.2.el with classes := addClasses res.2.el.classes res.2.draggedClass } }
    (res.1, d2, [Broadcast.dragging d2])

/-- endItemDrag: no-op if the record is not dragging; otherwise clear
isDragging, assign the (possibly undefined) cancelled argument, and emit the
record on the dropping Subject. -/
def endItemDrag (d : DraggableItem) (cancelled : Option Bool) :
    DraggableItem × List Broadcast :=
  if d.isDragging then
    let d2 := { d with isDragging := false, cancelled := cancelled }
    (d2, [Broadcast.dropping d2])
  else (d, [])

/-- destroyDraggableElement: if the record has a ghost, remove that node from
the viewport children and delete the reference.  The viewport child list is
passed explicitly. -/
def destroyDraggableElement (ghosts : List Nat) (d : DraggableItem) :
    List Nat × DraggableItem :=
  match d.dragEl with
  | some gh => (ghosts.erase gh.uid, { d with dragEl := none })
  | none => (ghosts, d)

/-- moveDraggableElement: set pos to the pointer minus the grab point and
move the ghost node there.  At both call sites beginItemDrag has run first,
so grabPoint is set; the none branch is unreachable there (the source would
throw on it). -/
def moveDraggableElement (d : DraggableItem) (left top : Int) : DraggableItem :=
  match d.grabPoint with
  | some g =>
      let p : Point := { x := left - g.x, y := top - g.y }
      { d with
          pos := some p,
          dragEl := d.dragEl.map (fun gh => { gh with left := p.x, top := p.y }) }
  | none => d

/-- One iteration of the dragStop loop: end the item drag, strip
draggedClass from the source element, destroy the ghost.  The accumulator is
(viewport ghost children, records processed so far, emissions so far). -/
def dragStopStep (cancelled : Option Bool)
    (acc : List Nat × List DraggableItem × List Broadcast) (d : DraggableItem) :
    List Nat × List DraggableItem × List Broadcast :=
  let r1 := endItemDrag d cancelled
  let d2 :=
    { r1.1 with el :=
        { r1.1.el with classes := removeClasses r1.1.el.classes r1.1.draggedClass } }
  let r2 := destroyDraggableElement acc.1 d2
  (r2.1, acc.2.1 ++ [r2.2], acc.2.2 ++ r1.2)

/-- dragStop: run the loop over every registered record, then restore the
original viewport cursor (a never-saved cursor restores to undefined, which
the browser ignores). -/
def dragStop (st : EngineState) (cancelled : Option Bool) :
    EngineState × List Broadcast :=
  let res := st.draggables.foldl (dragStopStep cancelled) (st.attachedGhosts, [], [])
  ({ st with
      draggables := res.2.1, attachedGhosts := res.1,
      viewportCursor :=
        match st.savedCursor with | some cur => cur | none => st.viewportCursor },
    res.2.2)

/-- deactivate: unsubscribe the mousemove (and resize) subscriptions, stop
all dragging, clear the draggables array, clear the scroll timers. -/
def deactivate (st : EngineState) (cancelled : Option Bool) :
    EngineState × List Broadcast :=
  let st1 := { st with moveSubscribed := false }
  let res := dragStop st1 cancelled
  (clearScrollIntervals { res.1 with draggables := [] }, res.2)

/-- dragStart: recache the viewport rect (the rect is modelled as stable) and
reset the last mouse position and displacement to empty objects. -/
def dragStart (st : EngineState) : EngineState :=
  { st with lastMousePos := none, lastDisplacement := none }

/-- activate: dragStart, then arm the sampled mousemove subscription and the
five one-shot end or abort listeners. -/
def activate (st : EngineState) : EngineState :=
  { dragStart st with
      moveSubscribed := true, mouseUpArmed := true, mouseDownArmed := true,
      windowMouseUpArmed := true, keyDownArmed := true, blurArmed := true }

/-- registerDraggable: set the viewport (selector resolution is not modelled
beyond the rect recache in dragStart), construct the record with the class
initializer defaults, push it, and activate. -/
def registerDraggable (st : EngineState) (event : Point) (el : Elem) (data : Nat)
    (draggingClass draggedClass : String) (startThreshold : Int) : EngineState :=
  let d : DraggableItem :=
    { uid := st.nextUid, el := el, dragEl := none, data := data,
      draggedClass := draggedClass, draggingClass := draggingClass,
      mouseDownEvent := event, pos := none, grabPoint := none,
      startThreshold := startThreshold, isDragging := false, cancelled := some false }
  activate { st with draggables := st.draggables ++ [d], nextUid := st.nextUid + 1 }

/-- The displacement computation of onViewportMouseMove: undefined minus a
number is NaN and NaN short-circuits through the or-zero to 0, so an empty
lastMousePos yields displacement 0 on both axes. -/
def dispOf (st : EngineState) (x y : Int) : Point :=
  { x := match st.lastMousePos with | some p => p.x - x | none => 0,
    y := match st.lastMousePos with | some p => p.y - y | none => 0 }

/-- One iteration of the onViewportMouseMove record loop: when the threshold
test passes at the current coordinates, begin the item drag (a no-op when
already dragging) and move the ghost; otherwise leave the record alone. -/
def moveStep (x y : Int)
    (acc : EngineState × List DraggableItem × List Broadcast) (d : DraggableItem) :
    EngineState × List DraggableItem × List Broadcast :=
  if startThresholdPassed d x y then
    let res := beginItemDrag acc.1 d
    let d2 := moveDraggableElement res.2.1 x y
    (res.1, acc.2.1 ++ [d2], acc.2.2 ++ res.2.2)
  else (acc.1, acc.2.1 ++ [d], acc.2.2)

/-- onViewportMouseMove: auto-scroll first, drop the move if the pointer is
outside the cached viewport rect, record displacement and last position,
drop the move if the displacement is exactly zero, otherwise run the record
loop. -/
def onViewportMouseMove (st : EngineState) (x y : Int) :
    EngineState × List Broadcast :=
  let st1 := scrollViewportAsNeeded x y st
  if isMouseOutsideViewport st1 x y then (st1, [])
  else
    let disp := dispOf st1 x y
    let st2 :=
      { st1 with
          lastDisplacement := some disp,
          lastMousePos := some { x := x, y := y } }
    if disp.x = 0 ∧ disp.y = 0 then (st2, [])
    else
      let res := st2.draggables.foldl (moveStep x y) (st2, [], [])
      ({ res.1 with draggables := res.2.1 }, res.2.2)

/-- The discrete inputs the armed listeners react to.  viewportMouseUp is a
primary-button release inside the viewport (which bubbles on to the window
listener); windowMouseUp is a release outside the viewport. -/
inductive Ev
  | move (x y : Int)
  | viewportMouseUp
  | viewportMouseDown
  | windowMouseUp
  | keyDown
  | blur
deriving DecidableEq

/-- True for the four abort routes: an opposing-button mousedown during the
drag, a mouseup outside the viewport, any keydown, and window blur. -/
def abortEv : Ev → Bool
  | Ev.viewportMouseDown => true
  | Ev.windowMouseUp => true
  | Ev.keyDown => true
  | Ev.blur => true
  | _ => false

/-- The one-shot viewport mouseup listener: when armed it fires once
(disarms) and ends the drag normally (onVieportMouseUp, cancelled left
undefined). -/
def fireViewportMouseUp (st : EngineState) : EngineState × List Broadcast :=
  if st.mouseUpArmed then deactivate { st with mouseUpArmed := false } none
  else (st, [])

/-- The one-shot window mouseup listener: when armed it fires once and
aborts with cancelled true. -/
def fireWindowMouseUp (st : EngineState) : EngineState × List Broadcast :=
  if st.windowMouseUpArmed then
    deactivate { st with windowMouseUpArmed := false } (some true)
  else (st, [])

/-- The one-shot viewport mousedown listener (opposing button during the
drag): when armed it fires once and aborts with cancelled true. -/
def fireViewportMouseDown (st : EngineState) : EngineState × List Broadcast :=
  if st.mouseDownArmed then
    deactivate { st with mouseDownArmed := false } (some true)
  else (st, [])

/-- The one-shot window keydown listener: when armed it fires once and
aborts with cancelled true. -/
def fireKeyDown (st : EngineState) : EngineState × List Broadcast :=
  if st.keyDownArmed then deactivate { st with keyDownArmed := false } (some true)
  else (st, [])

/-- The one-shot window blur listener: when armed it fires once and aborts
with cancelled true. -/
def fireBlur (st : EngineState) : EngineState × List Broadcast :=
  if st.blurArmed then deactivate { st with blurArmed := false } (some true)
  else (st, [])

/-- Dispatch one input to the armed listeners, as the subscriptions in
activate wire them: each one-shot disarms itself when it fires; the viewport
mouseup ends the drag normally and then the bubbled window mouseup runs the
abort path on whatever is left. -/
def step (st : EngineState) (e : Ev) : EngineState × List Broadcast :=
  match e with
  | Ev.move x y =>
      if st.moveSubscribed then onViewportMouseMove st x y else (st, [])
  | Ev.viewportMouseUp =>
      let r1 := fireViewportMouseUp st
      let r2 := fireWindowMouseUp r1.1
      (r2.1, r1.2 ++ r2.2)
  | Ev.viewportMouseDown => fireViewportMouseDown st
  | Ev.windowMouseUp => fireWindowMouseUp st
  | Ev.keyDown => fireKeyDown st
  | Ev.blur => fireBlur st

/-- Fold one input into a (state, emissions so far) accumulator. -/
def stepRun (acc : EngineState × List Broadcast) (e : Ev) :
    EngineState × List Broadcast :=
  let r := step acc.1 e
  (r.1, acc.2 ++ r.2)

/-- Run a sequence of inputs, collecting every emission in order. -/
def runEvents (st : EngineState) (evs : List Ev) : EngineState × List Broadcast :=
  evs.foldl stepRun (st, [])

/-- The per-instance state of the DroppableDirective: the dragging and
drop-target flags, the droppable identity payload (opaque, modelled as Nat),
the host-controlled accept flag, the two class-name strings, and the class
list of the host element. -/
structure DroppableState where
  dragging : Bool
  isDropTarget : Bool
  droppable : Nat
  acceptDrop : Bool
  droppableClasses : String
  notDroppableClasses : String
  elClasses : List String
deriving DecidableEq

/-- The payload of the final ddOnDrop emission. -/
structure DropPayload where
  draggable : Nat
  droppable : Nat
  isDropTarget : Bool
  cancelled : Option Bool
deriving DecidableEq

/-- The dropping-Subject handler of the droppable directive: emit the final
drop payload, clear the dragging flag, unsubscribe the mouse enter and leave
listeners (not carried in the modelled state), reset isDropTarget, and
remove both droppable class sets from the host element. -/
def onDropping (st : DroppableState) (d : DraggableItem) :
    DroppableState × List DropPayload :=
  let payload : DropPayload :=
    { draggable := d.data, droppable := st.droppable,
      isDropTarget := st.isDropTarget, cancelled := d.cancelled }
  ({ st with
      dragging := false, isDropTarget := false,
      elClasses := removeClasses (removeClasses st.elClasses st.droppableClasses)
        st.notDroppableClasses },
    [payload])

/-- An engine state with no registrations, nothing armed, a 2000 by 2000
viewport rect centred on the origin, and a viewport that cannot scroll. -/
def initialState : EngineState :=
  { draggables := [], lastMousePos := none, lastDisplacement := none,
    viewportRect :=
      { left := -1000, top := -1000, right := 1000, bottom := 1000,
        width := 2000, height := 2000 },
    viewportScrollLeft := 0, viewportScrollTop := 0,
    viewportMaxScrollLeft := 0, viewportMaxScrollTop := 0,
    viewportCursor := "", savedCursor := none, attachedGhosts := [],
    scrollXInterval := none, scrollYInterval := none,
    moveSubscribed := false, mouseUpArmed := false, mouseDownArmed := false,
    windowMouseUpArmed := false, keyDownArmed := false, blurArmed := false,
    nextUid := 0 }

/-- A sample source element: a 50 by 50 box with its top-left at the origin
and no classes. -/
def sampleElem : Elem :=
  { rect := { left := 0, top := 0, right := 50, bottom := 50, width := 50, height := 50 },
    classes := [] }

/-- A sample registered record that has not yet begun dragging: origin
mousedown at the origin, threshold 10, empty class strings. -/
def sampleRecIdle : DraggableItem :=
  { uid := 0, el := sampleElem, dragEl := none, data := 7, draggedClass := "",
    draggingClass := "", mouseDownEvent := { x := 0, y := 0 }, pos := none,
    grabPoint := none, startThreshold := 10, isDragging := false,
    cancelled := some false }

/-- The ghost of sampleRecDragging, currently at (20, 0). -/
def sampleGhost : GhostEl :=
  { uid := 5, left := 20, top := 0, width := 50, height := 50, visible := true,
    classes := [] }

/-- A sample record mid-drag: dragging, ghost attached, grab point at the
element's top-left corner. -/
def sampleRecDragging : DraggableItem :=
  { uid := 0, el := sampleElem, dragEl := some sampleGhost, data := 7,
    draggedClass := "", draggingClass := "", mouseDownEvent := { x := 0, y := 0 },
    pos := some { x := 20, y := 0 }, grabPoint := some { x := 0, y := 0 },
    startThreshold := 10, isDragging := true, cancelled := some false }

/-- An engine state in the middle of an active drag of sampleRecDragging:
everything armed, the ghost attached to the viewport, the pre-drag cursor
saved. -/
def activeDragState : EngineState :=
  { initialState with
      draggables := [sampleRecDragging], attachedGhosts := [5],
      lastMousePos := some { x := 20, y := 0 }, moveSubscribed := true,
      mouseUpArmed := true, mouseDownArmed := true, windowMouseUpArmed := true,
      keyDownArmed := true, blurArmed := true, savedCursor := some ("auto"),
      viewportCursor := "-webkit-grabbing", nextUid := 6 }

/-- An engine state with sampleRecIdle registered and the first sampled move
already consumed (lastMousePos primed at (5, 5)), so the next qualifying
move begins the drag. -/
def primedState : EngineState :=
  { initialState with
      draggables := [sampleRecIdle], lastMousePos := some { x := 5, y := 5 },
      moveSubscribed := true, mouseUpArmed := true, mouseDownArmed := true,
      windowMouseUpArmed := true, keyDownArmed := true, blurArmed := true,
      nextUid := 1 }

/-- The record snapshot the dragging Subject delivers when primedState gets
a sampled move at (30, 30): begun at that move, ghost uid 1 created at the
source position and made visible. -/
def primedBeginSnap : DraggableItem :=
  { sampleRecIdle with
      pos := some { x := 0, y := 0 }, grabPoint := some { x := 0, y := 0 },
      dragEl := some
        { uid := 1, left := 0, top := 0, width := 50, height := 50,
          visible := true, classes := [] },
      isDragging := true }

/-- The record snapshot the dropping Subject delivers when the drag of
activeDragState is aborted. -/
def abortedSnap : DraggableItem :=
  { sampleRecDragging with isDragging := false, cancelled := some true }

/-- The engine state right after registering sampleRecIdle on initialState. -/
def registeredState : EngineState :=
  registerDraggable initialState { x := 0, y := 0 } sampleElem 7 "" "" 10

/-- A state used as counterexample input for the auto-scroll claim: the
pointer can sit on the right edge of a viewport that has no horizontal
scroll range at all. -/
def noRoomState : EngineState :=
  { initialState with
      viewportRect :=
        { left := 0, top := 0, right := 100, bottom := 100, width := 100, height := 100 } }

/-- A sample droppable directive state during a drag, hovering over the
target, with one droppable class currently applied. -/
def sampleDroppable : DroppableState :=
  { dragging := true, isDropTarget := true, droppable := 3, acceptDrop := true,
    droppableClasses := "ok good", notDroppableClasses := "bad",
    elClasses := ["ok", "good", "keep"] }

/-- True of a dragging-Subject emission that delivers a record with the given
uid. -/
def isDraggingBroadcastFor (u : Nat) : Broadcast → Bool
  | Broadcast.dragging d => d.uid == u
  | Broadcast.dropping _ => false

/-- How many records with the given uid could still begin a drag: the count
of records carrying that uid whose isDragging is still false. -/
def pendingFor (u : Nat) (l : List DraggableItem) : Nat :=
  l.countP (fun d => d.uid == u && !d.isDragging)

/-- How one iteration of the record loop of onViewportMouseMove at pointer
(x, y) relates a record before the move to the record after it: a record
whose threshold test passes ends up dragging with its ghost at the pointer
minus the grab point, keeping its uid, and keeping its grab point if it was
already dragging; a record whose threshold test fails is untouched. -/
def recQ (x y : Int) (d d2 : DraggableItem) : Prop :=
  if startThresholdPassed d x y then
    ∃ g gh, d2.grabPoint = some g ∧ d2.dragEl = some gh ∧
      gh.left = x - g.x ∧ gh.top = y - g.y ∧ d2.isDragging = true ∧
      d2.uid = d.uid ∧ (d.isDragging = true → d2.grabPoint = d.grabPoint)
  else d2 = d

/-- Well-formedness of a live record: a dragging record has its grab point
and ghost set (beginItemDrag establishes both before isDragging is set). -/
def recWF (d : DraggableItem) : Prop :=
  d.isDragging = true → d.grabPoint.isSome = true ∧ d.dragEl.isSome = true

instance (d : DraggableItem) : Decidable (recWF d) := by
  unfold recWF
  infer_instance

/-- The intermediate state of onViewportMouseMove after the auto-scroll call
and the displacement and last-position updates, named so the record-loop
lemmas can refer to it. -/
def afterScroll (st : EngineState) (x y : Int) : EngineState :=
  { scrollViewportAsNeeded x y st with
      lastDisplacement := some (dispOf (scrollViewportAsNeeded x y st) x y),
      lastMousePos := some { x := x, y := y } }

theorem clearScrollIntervals_fields (st : EngineState) :
    (clearScrollIntervals st).draggables = st.draggables ∧
    (clearScrollIntervals st).viewportRect = st.viewportRect ∧
    (clearScrollIntervals st).lastMousePos = st.lastMousePos ∧
    (clearScrollIntervals st).savedCursor = st.savedCursor := by
  simp [clearScrollIntervals]

theorem scrollX_fields (x : Int) (st : EngineState) :
    (scrollX x st).draggables = st.draggables ∧
    (scrollX x st).viewportRect = st.viewportRect ∧
    (scrollX x st).lastMousePos = st.lastMousePos ∧
    (scrollX x st).savedCursor = st.savedCursor ∧
    (scrollX x st).viewportScrollTop = st.viewportScrollTop ∧
    (scrollX x st).scrollYInterval = st.scrollYInterval := by
  unfold scrollX
  split_ifs <;> simp

theorem scrollY_fields (y : Int) (st : EngineState) :
    (scrollY y st).draggables = st.draggables ∧
    (scrollY y st).viewportRect = st.viewportRect ∧
    (scrollY y st).lastMousePos = st.lastMousePos ∧
    (scrollY y st).savedCursor = st.savedCursor ∧
    (scrollY y st).scrollXInterval = st.scrollXInterval := by
  unfold scrollY
  split_ifs <;> simp

theorem scrollViewportAsNeeded_draggables (x y : Int) (st : EngineState) :
    (scrollViewportAsNeeded x y st).draggables = st.draggables := by
  unfold scrollViewportAsNeeded
  rw [(scrollY_fields _ _).1, (scrollX_fields _ _).1, (clearScrollIntervals_fields _).1]

theorem scrollViewportAsNeeded_viewportRect (x y : Int) (st : EngineState) :
    (scrollViewportAsNeeded x y st).viewportRect = st.viewportRect := by
  unfold scrollViewportAsNeeded
  rw [(scrollY_fields _ _).2.1, (scrollX_fields _ _).2.1,
    (clearScrollIntervals_fields _).2.1]

theorem scrollViewportAsNeeded_lastMousePos (x y : Int) (st : EngineState) :
    (scrollViewportAsNeeded x y st).lastMousePos = st.lastMousePos := by
  unfold scrollViewportAsNeeded
  rw [(scrollY_fields _ _).2.2.1, (scrollX_fields _ _).2.2.1,
    (clearScrollIntervals_fields _).2.2.1]

theorem scrollViewportAsNeeded_savedCursor (x y : Int) (st : EngineState) :
    (scrollViewportAsNeeded x y st).savedCursor = st.savedCursor := by
  unfold scrollViewportAsNeeded
  rw [(scrollY_fields _ _).2.2.2.1, (scrollX_fields _ _).2.2.2.1,
    (clearScrollIntervals_fields _).2.2.2]

theorem isMouseOutsideViewport_scroll (x y a b : Int) (st : EngineState) :
    isMouseOutsideViewport (scrollViewportAsNeeded x y st) a b =
      isMouseOutsideViewport st a b := by
  unfold isMouseOutsideViewport
  rw [scrollViewportAsNeeded_viewportRect]

theorem scrollViewportAsNeeded_scrollXInterval (x y : Int) (st : EngineState) :
    (scrollViewportAsNeeded x y st).scrollXInterval =
      if x ≤ st.viewportRect.left ∧ 0 < st.viewportScrollLeft then some ScrollDir.dec
      else if st.viewportRect.right - 2 ≤ x then some ScrollDir.inc
      else none := by
  unfold scrollViewportAsNeeded
  rw [(scrollY_fields _ _).2.2.2.2]
  simp only [scrollX, clearScrollIntervals]
  split_ifs <;> simp_all

theorem scrollViewportAsNeeded_scrollYInterval (x y : Int) (st : EngineState) :
    (scrollViewportAsNeeded x y st).scrollYInterval =
      if y ≤ st.viewportRect.top ∧ 0 < st.viewportScrollTop then some ScrollDir.dec
      else if st.viewportRect.bottom - 3 ≤ y then some ScrollDir.inc
      else none := by
  unfold scrollViewportAsNeeded scrollY
  simp only [scrollX, clearScrollIntervals]
  split_ifs <;> simp_all

theorem endItemDrag_not (d : DraggableItem) (c : Option Bool)
    (h : d.isDragging = false) : endItemDrag d c = (d, []) := by
  simp [endItemDrag, h]

theorem endItemDrag_dragEl (d : DraggableItem) (c : Option Bool) :
    (endItemDrag d c).1.dragEl = d.dragEl := by
  unfold endItemDrag
  split_ifs <;> simp

theorem endItemDrag_of_dragging (d : DraggableItem) (c : Option Bool)
    (h : d.isDragging = true) :
    endItemDrag d c =
      ({ d with isDragging := false, cancelled := c },
        [Broadcast.dropping { d with isDragging := false, cancelled := c }]) := by
  simp [endItemDrag, h]

theorem deactivate_draggables (st : EngineState) (c : Option Bool) :
    (deactivate st c).1.draggables = [] := by
  simp [deactivate, clearScrollIntervals]

theorem deactivate_snd_of_empty (st : EngineState) (c : Option Bool)
    (h : st.draggables = []) : (deactivate st c).2 = [] := by
  simp [deactivate, dragStop, h]

theorem destroyDraggableElement_some (g : List Nat) (d : DraggableItem)
    (gh : GhostEl) (h : d.dragEl = some gh) :
    destroyDraggableElement g d = (g.erase gh.uid, { d with dragEl := none }) := by
  simp [destroyDraggableElement, h]

theorem destroyDraggableElement_none (g : List Nat) (d : DraggableItem)
    (h : d.dragEl = none) : destroyDraggableElement g d = (g, d) := by
  simp [destroyDraggableElement, h]

theorem dragStopStep_bs (c : Option Bool)
    (acc : List Nat × List DraggableItem × List Broadcast) (d : DraggableItem) :
    (dragStopStep c acc d).2.2 = acc.2.2 ++ (endItemDrag d c).2 := rfl

theorem dragStopStep_ghosts (c : Option Bool)
    (acc : List Nat × List DraggableItem × List Broadcast) (d : DraggableItem) :
    (dragStopStep c acc d).1 =
      match d.dragEl with
      | some gh => acc.1.erase gh.uid
      | none => acc.1 := by
  cases h : d.dragEl with
  | some gh =>
      simp only [dragStopStep]
      rw [destroyDraggableElement_some _ _ gh (by simp [endItemDrag_dragEl, h])]
  | none =>
      simp only [dragStopStep]
      rw [destroyDraggableElement_none _ _ (by simp [endItemDrag_dragEl, h])]

theorem dragStopFold_mem (c : Option Bool) (l : List DraggableItem) :
    ∀ (ghosts : List Nat) (done : List DraggableItem) (bs : List Broadcast)
      (b : Broadcast),
      b ∈ (l.foldl (dragStopStep c) (ghosts, done, bs)).2.2 →
      b ∈ bs ∨ ∃ r, b = Broadcast.dropping r ∧ r.cancelled = c ∧ r.isDragging = false := by
  induction l with
  | nil =>
      intro ghosts done bs b h
      exact Or.inl h
  | cons d l ih =>
      intro ghosts done bs b h
      rw [List.foldl_cons] at h
      have heta : dragStopStep c (ghosts, done, bs) d =
          ((dragStopStep c (ghosts, done, bs) d).1,
            (dragStopStep c (ghosts, done, bs) d).2.1,
            (dragStopStep c (ghosts, done, bs) d).2.2) := rfl
      rw [heta] at h
      rcases ih _ _ _ b h with h2 | h2
      · rw [dragStopStep_bs] at h2
        rcases List.mem_append.mp h2 with h3 | h3
        · exact Or.inl h3
        · by_cases hd : d.isDragging
          · rw [endItemDrag_of_dragging d c hd] at h3
            simp only [List.mem_singleton] at h3
            exact Or.inr ⟨_, h3, rfl, rfl⟩
          · rw [endItemDrag_not d c (by simpa using hd)] at h3
            simp at h3
      · exact Or.inr h2

theorem dragStopFold_ghosts (c : Option Bool) (l : List DraggableItem) :
    ∀ (rest : List Nat) (done : List DraggableItem) (bs : List Broadcast),
      (l.foldl (dragStopStep c)
        (l.filterMap (fun r => r.dragEl.map GhostEl.uid) ++ rest, done, bs)).1 = rest := by
  induction l with
  | nil =>
      intro rest done bs
      simp
  | cons d l ih =>
      intro rest done bs
      rw [List.foldl_cons]
      have heta : ∀ acc : List Nat × List DraggableItem × List Broadcast,
          dragStopStep c acc d =
            ((dragStopStep c acc d).1, (dragStopStep c acc d).2.1,
              (dragStopStep c acc d).2.2) := fun acc => rfl
      rw [heta]
      cases h : d.dragEl with
      | some gh =>
          have hstep : (dragStopStep c
              ((d :: l).filterMap (fun r => r.dragEl.map GhostEl.uid) ++ rest, done, bs) d).1 =
              l.filterMap (fun r => r.dragEl.map GhostEl.uid) ++ rest := by
            rw [dragStopStep_ghosts]
            simp [h, List.filterMap_cons]
          rw [hstep]
          exact ih rest _ _
      | none =>
          have hstep : (dragStopStep c
              ((d :: l).filterMap (fun r => r.dragEl.map GhostEl.uid) ++ rest, done, bs) d).1 =
              l.filterMap (fun r => r.dragEl.map GhostEl.uid) ++ rest := by
            rw [dragStopStep_ghosts]
            simp [h, List.filterMap_cons]
          rw [hstep]
          exact ih rest _ _

theorem dragStop_attachedGhosts (st : EngineState) (c : Option Bool)
    (hwf : st.attachedGhosts = st.draggables.filterMap (fun d => d.dragEl.map GhostEl.uid)) :
    (dragStop st c).1.attachedGhosts = [] := by
  have h1 : st.attachedGhosts =
      st.draggables.filterMap (fun d => d.dragEl.map GhostEl.uid) ++ [] := by
    rw [List.append_nil]; exact hwf
  simp only [dragStop]
  rw [h1]
  exact dragStopFold_ghosts c st.draggables [] [] []

theorem dragStop_viewportCursor (st : EngineState) (c : Option Bool) :
    (dragStop st c).1.viewportCursor =
      match st.savedCursor with | some cur => cur | none => st.viewportCursor := by
  simp [dragStop]

theorem deactivate_dropping (st : EngineState) (c : Option Bool) (b : Broadcast)
    (h : b ∈ (deactivate st c).2) :
    ∃ r, b = Broadcast.dropping r ∧ r.cancelled = c := by
  simp only [deactivate, dragStop] at h
  rcases dragStopFold_mem c _ _ _ _ b h with h2 | h2
  · simp at h2
  · exact ⟨h2.choose, h2.choose_spec.1, h2.choose_spec.2.1⟩

theorem deactivate_attachedGhosts (st : EngineState) (c : Option Bool)
    (hwf : st.attachedGhosts = st.draggables.filterMap (fun d => d.dragEl.map GhostEl.uid)) :
    (deactivate st c).1.attachedGhosts = [] := by
  simp only [deactivate, clearScrollIntervals]
  exact dragStop_attachedGhosts _ c (by simpa using hwf)

theorem deactivate_viewportCursor (st : EngineState) (c : Option Bool) :
    (deactivate st c).1.viewportCursor =
      match st.savedCursor with | some cur => cur | none => st.viewportCursor := by
  simp only [deactivate, clearScrollIntervals]
  rw [dragStop_viewportCursor]

theorem onViewportMouseMove_outside (st : EngineState) (x y : Int)
    (h : isMouseOutsideViewport st x y = true) :
    onViewportMouseMove st x y = (scrollViewportAsNeeded x y st, []) := by
  have h2 : isMouseOutsideViewport (scrollViewportAsNeeded x y st) x y = true := by
    rw [isMouseOutsideViewport_scroll]; exact h
  simp [onViewportMouseMove, h2]

theorem ite_deactivate_dropping (cond : Prop) [Decidable cond]
    (st0 st1 : EngineState) (c : Option Bool) (r : DraggableItem)
    (h : Broadcast.dropping r ∈ (if cond then deactivate st1 c else (st0, [])).2) :
    r.cancelled = c := by
  split at h
  · obtain ⟨r2, h1, h2⟩ := deactivate_dropping _ _ _ h
    cases h1
    exact h2
  · simp at h

theorem ite_deactivate_dropping_ex (cond : Prop) [Decidable cond]
    (st0 st1 : EngineState) (c : Option Bool) (b : Broadcast)
    (h : b ∈ (if cond then deactivate st1 c else (st0, [])).2) :
    ∃ r, b = Broadcast.dropping r ∧ r.cancelled = c := by
  split at h
  · exact deactivate_dropping _ _ _ h
  · simp at h

theorem ite_deactivate_draggables (cond : Prop) [Decidable cond]
    (st0 st1 : EngineState) (c : Option Bool) :
    ((if cond then deactivate st1 c else (st0, [])).1).draggables = st0.draggables ∨
      ((if cond then deactivate st1 c else (st0, [])).1).draggables = [] := by
  split
  · exact Or.inr (deactivate_draggables _ _)
  · exact Or.inl rfl

theorem fireViewportMouseUp_dropping (st : EngineState) (b : Broadcast)
    (h : b ∈ (fireViewportMouseUp st).2) :
    ∃ r, b = Broadcast.dropping r ∧ r.cancelled = none := by
  unfold fireViewportMouseUp at h
  exact ite_deactivate_dropping_ex _ _ _ _ b h

theorem fireWindowMouseUp_dropping (st : EngineState) (b : Broadcast)
    (h : b ∈ (fireWindowMouseUp st).2) :
    ∃ r, b = Broadcast.dropping r ∧ r.cancelled = some true := by
  unfold fireWindowMouseUp at h
  exact ite_deactivate_dropping_ex _ _ _ _ b h

theorem fireViewportMouseDown_dropping (st : EngineState) (b : Broadcast)
    (h : b ∈ (fireViewportMouseDown st).2) :
    ∃ r, b = Broadcast.dropping r ∧ r.cancelled = some true := by
  unfold fireViewportMouseDown at h
  exact ite_deactivate_dropping_ex _ _ _ _ b h

theorem fireKeyDown_dropping (st : EngineState) (b : Broadcast)
    (h : b ∈ (fireKeyDown st).2) :
    ∃ r, b = Broadcast.dropping r ∧ r.cancelled = some true := by
  unfold fireKeyDown at h
  exact ite_deactivate_dropping_ex _ _ _ _ b h

theorem fireBlur_dropping (st : EngineState) (b : Broadcast)
    (h : b ∈ (fireBlur st).2) :
    ∃ r, b = Broadcast.dropping r ∧ r.cancelled = some true := by
  unfold fireBlur at h
  exact ite_deactivate_dropping_ex _ _ _ _ b h

theorem fireViewportMouseUp_draggables (st : EngineState) :
    (fireViewportMouseUp st).1.draggables = st.draggables ∨
      (fireViewportMouseUp st).1.draggables = [] := by
  unfold fireViewportMouseUp
  exact ite_deactivate_draggables _ _ _ _

theorem fireWindowMouseUp_draggables (st : EngineState) :
    (fireWindowMouseUp st).1.draggables = st.draggables ∨
      (fireWindowMouseUp st).1.draggables = [] := by
  unfold fireWindowMouseUp
  exact ite_deactivate_draggables _ _ _ _

theorem fireViewportMouseDown_draggables (st : EngineState) :
    (fireViewportMouseDown st).1.draggables = st.draggables ∨
      (fireViewportMouseDown st).1.draggables = [] := by
  unfold fireViewportMouseDown
  exact ite_deactivate_draggables _ _ _ _

theorem fireKeyDown_draggables (st : EngineState) :
    (fireKeyDown st).1.draggables = st.draggables ∨
      (fireKeyDown st).1.draggables = [] := by
  unfold fireKeyDown
  exact ite_deactivate_draggables _ _ _ _

theorem fireBlur_draggables (st : EngineState) :
    (fireBlur st).1.draggables = st.draggables ∨
      (fireBlur st).1.draggables = [] := by
  unfold fireBlur
  exact ite_deactivate_draggables _ _ _ _

theorem fireWindowMouseUp_snd_of_empty (st : EngineState)
    (h : st.draggables = []) : (fireWindowMouseUp st).2 = [] := by
  unfold fireWindowMouseUp
  split
  · exact deactivate_snd_of_empty _ _ (by simpa using h)
  · rfl

theorem fireViewportMouseUp_snd_of_empty (st : EngineState)
    (h : st.draggables = []) : (fireViewportMouseUp st).2 = [] := by
  unfold fireViewportMouseUp
  split
  · exact deactivate_snd_of_empty _ _ (by simpa using h)
  · rfl

theorem fireViewportMouseDown_snd_of_empty (st : EngineState)
    (h : st.draggables = []) : (fireViewportMouseDown st).2 = [] := by
  unfold fireViewportMouseDown
  split
  · exact deactivate_snd_of_empty _ _ (by simpa using h)
  · rfl

theorem fireKeyDown_snd_of_empty (st : EngineState)
    (h : st.draggables = []) : (fireKeyDown st).2 = [] := by
  unfold fireKeyDown
  split
  · exact deactivate_snd_of_empty _ _ (by simpa using h)
  · rfl

theorem fireBlur_snd_of_empty (st : EngineState)
    (h : st.draggables = []) : (fireBlur st).2 = [] := by
  unfold fireBlur
  split
  · exact deactivate_snd_of_empty _ _ (by simpa using h)
  · rfl

theorem step_nonmove_snd_of_empty (st : EngineState) (e : Ev)
    (he : abortEv e = true ∨ e = Ev.viewportMouseUp)
    (h : st.draggables = []) : (step st e).2 = [] := by
  cases e with
  | move x y => simp [abortEv] at he
  | viewportMouseUp =>
      have hstep : (step st Ev.viewportMouseUp).2 =
          (fireViewportMouseUp st).2 ++
            (fireWindowMouseUp (fireViewportMouseUp st).1).2 := rfl
      rw [hstep, fireViewportMouseUp_snd_of_empty st h]
      have h2 : (fireViewportMouseUp st).1.draggables = [] := by
        rcases fireViewportMouseUp_draggables st with h2 | h2
        · rw [h2]
          exact h
        · exact h2
      rw [fireWindowMouseUp_snd_of_empty _ h2]
      rfl
  | viewportMouseDown => exact fireViewportMouseDown_snd_of_empty st h
  | windowMouseUp => exact fireWindowMouseUp_snd_of_empty st h
  | keyDown => exact fireKeyDown_snd_of_empty st h
  | blur => exact fireBlur_snd_of_empty st h

/-- Claim C3: endItemDrag on a record that is not dragging is a strict no-op
which emits nothing; ending twice in a row on a dragging record emits
exactly one dropping broadcast, the second call emitting none; running
deactivate again after a completed deactivate emits no dropping broadcast;
and any abort input (or a further mouseup) dispatched after a completed
deactivation emits nothing at all (the record collection was cleared). -/
theorem c3_end_drag_idempotent :
    (∀ (d : DraggableItem) (c : Option Bool), d.isDragging = false →
      endItemDrag d c = (d, [])) ∧
    (∀ (d : DraggableItem) (c c2 : Option Bool), d.isDragging = true →
      (endItemDrag d c).2.length = 1 ∧
        (endItemDrag (endItemDrag d c).1 c2).2 = []) ∧
    (∀ (st : EngineState) (c c2 : Option Bool),
      (deactivate (deactivate st c).1 c2).2 = []) ∧
    (∀ (st : EngineState) (c : Option Bool) (e : Ev),
      abortEv e = true ∨ e = Ev.viewportMouseUp →
      (step (deactivate st c).1 e).2 = []) := by
  refine ⟨fun d c h => endItemDrag_not d c h, fun d c c2 h => ?_,
    fun st c c2 => ?_, fun st c e he => ?_⟩
  · rw [endItemDrag_of_dragging d c h]
    refine ⟨rfl, ?_⟩
    rw [endItemDrag_not _ c2 rfl]
  · exact deactivate_snd_of_empty _ c2 (deactivate_draggables st c)
  · exact step_nonmove_snd_of_empty _ e he (deactivate_draggables st c)

/-- Claim C3 witness: evaluated on an idle and on a dragging sample record. -/
theorem c3_witness :
    (sampleRecIdle.isDragging = false ∧
      endItemDrag sampleRecIdle none = (sampleRecIdle, [])) ∧
    (sampleRecDragging.isDragging = true ∧
      (endItemDrag sampleRecDragging (some true)).2.length = 1 ∧
      (endItemDrag (endItemDrag sampleRecDragging (some true)).1 none).2 = []) ∧
    (step (deactivate activeDragState none).1 Ev.keyDown).2 = [] :=
  ⟨⟨by decide, c3_end_drag_idempotent.1 sampleRecIdle none (by decide)⟩,
    ⟨by decide, c3_end_drag_idempotent.2.1 sampleRecDragging (some true) none (by decide)⟩,
    c3_end_drag_idempotent.2.2.2 activeDragState none Ev.keyDown (Or.inl rfl)⟩

/-- Claim C4: every dropping broadcast produced by an abort route (opposing
mousedown, mouseup outside the viewport, keydown, blur) delivers the record
with cancelled set to true, and every dropping broadcast produced by the
normal viewport mouseup delivers it with cancelled unset (none, falsy). -/
theorem c4_cancelled_flag :
    (∀ (st : EngineState) (e : Ev), abortEv e = true →
      ∀ r : DraggableItem, Broadcast.dropping r ∈ (step st e).2 →
        r.cancelled = some true) ∧
    (∀ st : EngineState, st.mouseUpArmed = true →
      ∀ r : DraggableItem, Broadcast.dropping r ∈ (step st Ev.viewportMouseUp).2 →
        r.cancelled = none) := by
  constructor
  · intro st e he r hr
    cases e with
    | move x y => simp [abortEv] at he
    | viewportMouseUp => simp [abortEv] at he
    | viewportMouseDown =>
        obtain ⟨r2, e1, e2⟩ := fireViewportMouseDown_dropping st _ hr
        cases e1
        exact e2
    | windowMouseUp =>
        obtain ⟨r2, e1, e2⟩ := fireWindowMouseUp_dropping st _ hr
        cases e1
        exact e2
    | keyDown =>
        obtain ⟨r2, e1, e2⟩ := fireKeyDown_dropping st _ hr
        cases e1
        exact e2
    | blur =>
        obtain ⟨r2, e1, e2⟩ := fireBlur_dropping st _ hr
        cases e1
        exact e2
  · intro st h r hr
    have hstep : (step st Ev.viewportMouseUp).2 =
        (fireViewportMouseUp st).2 ++ (fireWindowMouseUp (fireViewportMouseUp st).1).2 := rfl
    rw [hstep] at hr
    rcases List.mem_append.mp hr with h1 | h1
    · obtain ⟨r2, e1, e2⟩ := fireViewportMouseUp_dropping st _ h1
      cases e1
      exact e2
    · have hempty : (fireViewportMouseUp st).1.draggables = [] := by
        unfold fireViewportMouseUp
        rw [if_pos h]
        exact deactivate_draggables _ _
      rw [fireWindowMouseUp_snd_of_empty _ hempty] at h1
      simp at h1

/-- Claim C4 witness: a keydown abort on a mid-drag state delivers cancelled
true; a normal viewport mouseup on the same state delivers cancelled none. -/
theorem c4_witness :
    (abortEv Ev.keyDown = true ∧
      Broadcast.dropping abortedSnap ∈ (step activeDragState Ev.keyDown).2 ∧
      abortedSnap.cancelled = some true) ∧
    (activeDragState.mouseUpArmed = true ∧
      Broadcast.dropping { sampleRecDragging with isDragging := false, cancelled := none } ∈
        (step activeDragState Ev.viewportMouseUp).2 ∧
      ({ sampleRecDragging with isDragging := false, cancelled := none } :
        DraggableItem).cancelled = none) :=
  ⟨⟨by decide, by decide,
      c4_cancelled_flag.1 activeDragState Ev.keyDown (by decide) abortedSnap (by decide)⟩,
    ⟨by decide, by decide,
      c4_cancelled_flag.2 activeDragState (by decide)
        { sampleRecDragging with isDragging := false, cancelled := none } (by decide)⟩⟩

/-- Claim C5: irrespective of the cancelled flag of the teardown route,
deactivate leaves the record collection empty, no ghost node attached to the
viewport (given that the attached ghosts are exactly the ghosts of the
records, which is how createDraggableElement and destroyDraggableElement
maintain them), and the viewport cursor restored to the value saved at
beginItemDrag; and beginItemDrag saves exactly the pre-drag cursor. -/
theorem c5_deactivate_cleanup :
    (∀ (st : EngineState) (c : Option Bool) (preCursor : String),
      st.attachedGhosts = st.draggables.filterMap (fun d => d.dragEl.map GhostEl.uid) →
      st.savedCursor = some preCursor →
      (deactivate st c).1.draggables = [] ∧
      (deactivate st c).1.attachedGhosts = [] ∧
      (deactivate st c).1.viewportCursor = preCursor) ∧
    (∀ (st : EngineState) (d : DraggableItem), d.isDragging = false →
      (beginItemDrag st d).1.savedCursor = some st.viewportCursor) := by
  constructor
  · intro st c preCursor hwf hsave
    refine ⟨deactivate_draggables st c, deactivate_attachedGhosts st c hwf, ?_⟩
    rw [deactivate_viewportCursor, hsave]
  · intro st d h
    simp [beginItemDrag, h, createDraggableElement]

/-- Claim C5 witness: deactivating the sample mid-drag state by an abort
leaves no record, no attached ghost, and the saved cursor restored. -/
theorem c5_witness :
    (activeDragState.attachedGhosts =
      activeDragState.draggables.filterMap (fun d => d.dragEl.map GhostEl.uid) ∧
      activeDragState.savedCursor = some ("auto")) ∧
    ((deactivate activeDragState (some true)).1.draggables = [] ∧
      (deactivate activeDragState (some true)).1.attachedGhosts = [] ∧
      (deactivate activeDragState (some true)).1.viewportCursor = "auto") :=
  ⟨⟨by decide, by decide⟩,
    c5_deactivate_cleanup.1 activeDragState (some true) ("auto") (by decide) (by decide)⟩

/-- Claim C6: isMouseOutsideViewport is true exactly when a coordinate lies
strictly outside the cached viewport rect on some side, and a sampled move
whose coordinates are outside by this test changes no record in any way and
emits nothing (the last mouse position is not even updated). -/
theorem c6_outside_viewport :
    (∀ (st : EngineState) (x y : Int),
      isMouseOutsideViewport st x y = true ↔
        (x < st.viewportRect.left ∨ x > st.viewportRect.right ∨
          y < st.viewportRect.top ∨ y > st.viewportRect.bottom)) ∧
    (∀ (st : EngineState) (x y : Int), isMouseOutsideViewport st x y = true →
      (step st (Ev.move x y)).1.draggables = st.draggables ∧
      (step st (Ev.move x y)).1.lastMousePos = st.lastMousePos ∧
      (step st (Ev.move x y)).2 = []) := by
  constructor
  · intro st x y
    simp only [isMouseOutsideViewport, Bool.or_eq_true, decide_eq_true_eq]
    tauto
  · intro st x y h
    by_cases hm : st.moveSubscribed
    · have hout := onViewportMouseMove_outside st x y h
      simp only [step, hm, if_true]
      rw [hout]
      exact ⟨scrollViewportAsNeeded_draggables x y st,
        scrollViewportAsNeeded_lastMousePos x y st, rfl⟩
    · simp [step, hm]

/-- Claim C6 witness: a move far to the right of the sample viewport is
outside and leaves the mid-drag state's records untouched. -/
theorem c6_witness :
    isMouseOutsideViewport activeDragState 2000 0 = true ∧
    ((step activeDragState (Ev.move 2000 0)).1.draggables = activeDragState.draggables ∧
      (step activeDragState (Ev.move 2000 0)).1.lastMousePos = activeDragState.lastMousePos ∧
      (step activeDragState (Ev.move 2000 0)).2 = []) :=
  ⟨by decide, c6_outside_viewport.2 activeDragState 2000 0 (by decide)⟩

/-- Claim C7 (amended): each call first clears both timers, so at most one
timer per axis runs and the result is independent of previously running
timers; the near-edge (left and top) timers start exactly when the pointer
is at or beyond that edge and the scroll offset is positive (room to scroll
back); the far-edge (right and bottom) timers start exactly when the pointer
is at or beyond the edge minus the pixel bias, with no room condition. -/
theorem c7_scroll_timers :
    ∀ (x y : Int) (st : EngineState),
      ((scrollViewportAsNeeded x y st).scrollXInterval = some ScrollDir.dec ↔
        (x ≤ st.viewportRect.left ∧ 0 < st.viewportScrollLeft)) ∧
      ((scrollViewportAsNeeded x y st).scrollXInterval = some ScrollDir.inc ↔
        (¬(x ≤ st.viewportRect.left ∧ 0 < st.viewportScrollLeft) ∧
          st.viewportRect.right - 2 ≤ x)) ∧
      ((scrollViewportAsNeeded x y st).scrollYInterval = some ScrollDir.dec ↔
        (y ≤ st.viewportRect.top ∧ 0 < st.viewportScrollTop)) ∧
      ((scrollViewportAsNeeded x y st).scrollYInterval = some ScrollDir.inc ↔
        (¬(y ≤ st.viewportRect.top ∧ 0 < st.viewportScrollTop) ∧
          st.viewportRect.bottom - 3 ≤ y)) ∧
      (∀ v w : Option ScrollDir,
        scrollViewportAsNeeded x y
          { st with scrollXInterval := v, scrollYInterval := w } =
          scrollViewportAsNeeded x y st) := by
  intro x y st
  refine ⟨?_, ?_, ?_, ?_, fun v w => rfl⟩
  · rw [scrollViewportAsNeeded_scrollXInterval]
    split_ifs <;> simp_all
  · rw [scrollViewportAsNeeded_scrollXInterval]
    split_ifs <;> simp_all
  · rw [scrollViewportAsNeeded_scrollYInterval]
    split_ifs <;> simp_all
  · rw [scrollViewportAsNeeded_scrollYInterval]
    split_ifs <;> simp_all

/-- Claim C7 counterexample: on a viewport with no horizontal scroll range
at all, a pointer on the right edge still starts the rightward timer, so a
timer does start without room to scroll in that direction. -/
theorem c7_counterexample :
    (scrollViewportAsNeeded 100 50 noRoomState).scrollXInterval = some ScrollDir.inc ∧
    ¬(noRoomState.viewportScrollLeft < noRoomState.viewportMaxScrollLeft) := by
  decide

/-- Claim C1 counterexample: with origin at the origin and threshold 10, the
pointer at (10, 10) is displaced exactly the threshold on both axes, the
strict-exceedance reading of the claim requires the test to fail, yet
startThresholdPassed returns true. -/
theorem c1_counterexample :
    startThresholdPassed sampleRecIdle 10 10 = true ∧
    ¬(sampleRecIdle.startThreshold < |sampleRecIdle.mouseDownEvent.x - 10| ∨
      sampleRecIdle.startThreshold < |sampleRecIdle.mouseDownEvent.y - 10|) := by
  decide

/-- Claim C2 counterexample: register with threshold 10 and origin (0, 0);
moves at (5, 5) (primes the last position), (20, 0) (begins the drag, ghost
to 20) and (3, 0) (processed: inside the viewport, nonzero displacement) end
with the record still dragging but the ghost left at 20, not at
pointerX minus grabOffsetX = 3 - 0. -/
theorem c2_counterexample :
    ((runEvents registeredState [Ev.move 5 5, Ev.move 20 0, Ev.move 3 0]).1.draggables.map
      (fun d => (d.isDragging, d.grabPoint, d.dragEl.map (fun gh => gh.left)))) =
      [(true, some { x := 0, y := 0 }, some 20)] ∧
    (20 : Int) ≠ 3 - 0 := by
  decide

theorem beginItemDrag_of_dragging (st : EngineState) (d : DraggableItem)
    (h : d.isDragging = true) : beginItemDrag st d = (st, d, []) := by
  simp [beginItemDrag, h]

theorem beginItemDrag_snd_of_not (st : EngineState) (d : DraggableItem)
    (h : d.isDragging = false) :
    (beginItemDrag st d).2.2 = [Broadcast.dragging (beginItemDrag st d).2.1] := by
  simp [beginItemDrag, h]

theorem beginItemDrag_isDragging (st : EngineState) (d : DraggableItem) :
    (beginItemDrag st d).2.1.isDragging = true := by
  by_cases h : d.isDragging <;> simp [beginItemDrag, createDraggableElement, h]

theorem beginItemDrag_uid (st : EngineState) (d : DraggableItem) :
    (beginItemDrag st d).2.1.uid = d.uid := by
  by_cases h : d.isDragging <;> simp [beginItemDrag, createDraggableElement, h]

theorem beginItemDrag_mouseDownEvent (st : EngineState) (d : DraggableItem) :
    (beginItemDrag st d).2.1.mouseDownEvent = d.mouseDownEvent := by
  by_cases h : d.isDragging <;> simp [beginItemDrag, createDraggableElement, h]

theorem beginItemDrag_startThreshold (st : EngineState) (d : DraggableItem) :
    (beginItemDrag st d).2.1.startThreshold = d.startThreshold := by
  by_cases h : d.isDragging <;> simp [beginItemDrag, createDraggableElement, h]

theorem beginItemDrag_grab_of_not (st : EngineState) (d : DraggableItem)
    (h : d.isDragging = false) :
    (beginItemDrag st d).2.1.grabPoint =
      some
        { x := d.mouseDownEvent.x - d.el.rect.left,
          y := d.mouseDownEvent.y - d.el.rect.top } ∧
    (beginItemDrag st d).2.1.dragEl =
      some
        { uid := st.nextUid, left := d.el.rect.left, top := d.el.rect.top,
          width := d.el.rect.width, height := d.el.rect.height, visible := true,
          classes := addClasses d.el.classes d.draggingClass } := by
  simp [beginItemDrag, createDraggableElement, h]

theorem moveDraggableElement_some (d : DraggableItem) (g : Point) (x y : Int)
    (h : d.grabPoint = some g) :
    moveDraggableElement d x y =
      { d with
          pos := some { x := x - g.x, y := y - g.y },
          dragEl := d.dragEl.map
            (fun gh => { gh with left := x - g.x, top := y - g.y }) } := by
  simp [moveDraggableElement, h]

theorem moveStep_done (x y : Int)
    (acc : EngineState × List DraggableItem × List Broadcast) (d : DraggableItem) :
    (moveStep x y acc d).2.1 = acc.2.1 ++
      [if startThresholdPassed d x y then
        moveDraggableElement (beginItemDrag acc.1 d).2.1 x y else d] := by
  by_cases hp : startThresholdPassed d x y <;> simp [moveStep, hp]

theorem moveStep_bs (x y : Int)
    (acc : EngineState × List DraggableItem × List Broadcast) (d : DraggableItem) :
    (moveStep x y acc d).2.2 = acc.2.2 ++
      (if startThresholdPassed d x y then (beginItemDrag acc.1 d).2.2 else []) := by
  by_cases hp : startThresholdPassed d x y <;> simp [moveStep, hp]

theorem get_congr {l1 l2 : List DraggableItem} (h : l1 = l2) (i : Nat)
    (h1 : i < l1.length) (h2 : i < l2.length) :
    l1.get ⟨i, h1⟩ = l2.get ⟨i, h2⟩ := by
  subst h
  rfl

theorem forall2_get {α β : Type} {R : α → β → Prop} :
    ∀ {l1 : List α} {l2 : List β}, List.Forall₂ R l1 l2 →
      ∀ (i : Nat) (h1 : i < l1.length) (h2 : i < l2.length),
        R (l1.get ⟨i, h1⟩) (l2.get ⟨i, h2⟩) := by
  intro l1 l2 h
  induction h with
  | nil =>
      intro i h1 h2
      exact absurd h1 (by simp)
  | cons hR hF ihF =>
      intro i h1 h2
      cases i with
      | zero => exact hR
      | succ n => exact ihF n (Nat.lt_of_succ_lt_succ h1) (Nat.lt_of_succ_lt_succ h2)

theorem afterScroll_draggables (st : EngineState) (x y : Int) :
    (afterScroll st x y).draggables = st.draggables := by
  simp [afterScroll, scrollViewportAsNeeded_draggables]

theorem onViewportMouseMove_zero (st : EngineState) (x y : Int)
    (h1 : isMouseOutsideViewport (scrollViewportAsNeeded x y st) x y = false)
    (h2 : (dispOf (scrollViewportAsNeeded x y st) x y).x = 0 ∧
      (dispOf (scrollViewportAsNeeded x y st) x y).y = 0) :
    onViewportMouseMove st x y = (afterScroll st x y, []) := by
  simp [onViewportMouseMove, afterScroll, h1, h2]

theorem onViewportMouseMove_loop (st : EngineState) (x y : Int)
    (h1 : isMouseOutsideViewport (scrollViewportAsNeeded x y st) x y = false)
    (h2 : ¬((dispOf (scrollViewportAsNeeded x y st) x y).x = 0 ∧
      (dispOf (scrollViewportAsNeeded x y st) x y).y = 0)) :
    onViewportMouseMove st x y =
      ({ ((afterScroll st x y).draggables.foldl (moveStep x y)
            (afterScroll st x y, [], [])).1 with
          draggables := ((afterScroll st x y).draggables.foldl (moveStep x y)
            (afterScroll st x y, [], [])).2.1 },
        ((afterScroll st x y).draggables.foldl (moveStep x y)
          (afterScroll st x y, [], [])).2.2) := by
  simp [onViewportMouseMove, afterScroll, h1, h2]

theorem moveStep_newrec_recQ (x y : Int)
    (acc : EngineState × List DraggableItem × List Broadcast) (d : DraggableItem)
    (hwf : recWF d) :
    recQ x y d (if startThresholdPassed d x y then
      moveDraggableElement (beginItemDrag acc.1 d).2.1 x y else d) := by
  by_cases hp : startThresholdPassed d x y
  · rw [if_pos hp]
    simp only [recQ, hp, if_true]
    by_cases hd : d.isDragging
    · rw [beginItemDrag_of_dragging _ _ hd]
      obtain ⟨hg, he⟩ := hwf hd
      obtain ⟨g, hg2⟩ := Option.isSome_iff_exists.mp hg
      obtain ⟨gh, he2⟩ := Option.isSome_iff_exists.mp he
      rw [moveDraggableElement_some d g x y hg2]
      refine ⟨g, { gh with left := x - g.x, top := y - g.y },
        by simpa using hg2, by simp [he2], rfl, rfl, by simpa using hd, rfl,
        fun _ => by simp⟩
    · have h1 := beginItemDrag_grab_of_not acc.1 d (by simpa using hd)
      rw [moveDraggableElement_some _ _ x y h1.1]
      refine ⟨
        { x := d.mouseDownEvent.x - d.el.rect.left,
          y := d.mouseDownEvent.y - d.el.rect.top },
        { uid := acc.1.nextUid,
          left := x - (d.mouseDownEvent.x - d.el.rect.left),
          top := y - (d.mouseDownEvent.y - d.el.rect.top),
          width := d.el.rect.width, height := d.el.rect.height, visible := true,
          classes := addClasses d.el.classes d.draggingClass },
        ?_, ?_, ?_, ?_, ?_, ?_, ?_⟩
      · simpa using h1.1
      · simp [h1.2]
      · simp
      · simp
      · simpa using beginItemDrag_isDragging acc.1 d
      · simpa using beginItemDrag_uid acc.1 d
      · intro hcon
        exact absurd hcon (by simpa using hd)
  · rw [if_neg hp]
    simp [recQ, hp]

theorem moveFold_forall2 (x y : Int) (l : List DraggableItem) :
    ∀ (st : EngineState) (done : List DraggableItem) (bs : List Broadcast),
      (∀ d ∈ l, recWF d) →
      ∃ l2, (l.foldl (moveStep x y) (st, done, bs)).2.1 = done ++ l2 ∧
        List.Forall₂ (recQ x y) l l2 := by
  induction l with
  | nil =>
      intro st done bs _
      exact ⟨[], by simp, List.Forall₂.nil⟩
  | cons d l ih =>
      intro st done bs hwf
      rw [List.foldl_cons]
      have heta : moveStep x y (st, done, bs) d =
          ((moveStep x y (st, done, bs) d).1, (moveStep x y (st, done, bs) d).2.1,
            (moveStep x y (st, done, bs) d).2.2) := rfl
      obtain ⟨l2, h1, h2⟩ := ih (moveStep x y (st, done, bs) d).1
        (moveStep x y (st, done, bs) d).2.1 (moveStep x y (st, done, bs) d).2.2
        (fun r hr => hwf r (List.mem_cons_of_mem d hr))
      rw [← heta] at h1
      refine ⟨(if startThresholdPassed d x y then
        moveDraggableElement (beginItemDrag st d).2.1 x y else d) :: l2, ?_, ?_⟩
      · rw [h1, moveStep_done]
        simp
      · exact List.Forall₂.cons
          (moveStep_newrec_recQ x y (st, done, bs) d (hwf d (List.mem_cons_self d l)))
          h2

theorem step_nonmove_no_dragging (st : EngineState) (e : Ev)
    (he : abortEv e = true ∨ e = Ev.viewportMouseUp) (b : Broadcast)
    (hb : b ∈ (step st e).2) : ∃ r, b = Broadcast.dropping r := by
  cases e with
  | move x y => simp [abortEv] at he
  | viewportMouseUp =>
      have hstep : (step st Ev.viewportMouseUp).2 =
          (fireViewportMouseUp st).2 ++
            (fireWindowMouseUp (fireViewportMouseUp st).1).2 := rfl
      rw [hstep] at hb
      rcases List.mem_append.mp hb with h1 | h1
      · obtain ⟨r, hr, _⟩ := fireViewportMouseUp_dropping st _ h1
        exact ⟨r, hr⟩
      · obtain ⟨r, hr, _⟩ := fireWindowMouseUp_dropping _ _ h1
        exact ⟨r, hr⟩
  | viewportMouseDown =>
      obtain ⟨r, hr, _⟩ := fireViewportMouseDown_dropping st _ hb
      exact ⟨r, hr⟩
  | windowMouseUp =>
      obtain ⟨r, hr, _⟩ := fireWindowMouseUp_dropping st _ hb
      exact ⟨r, hr⟩
  | keyDown =>
      obtain ⟨r, hr, _⟩ := fireKeyDown_dropping st _ hb
      exact ⟨r, hr⟩
  | blur =>
      obtain ⟨r, hr, _⟩ := fireBlur_dropping st _ hb
      exact ⟨r, hr⟩

theorem step_nonmove_draggables (st : EngineState) (e : Ev)
    (he : abortEv e = true ∨ e = Ev.viewportMouseUp) :
    (step st e).1.draggables = st.draggables ∨ (step st e).1.draggables = [] := by
  cases e with
  | move x y => simp [abortEv] at he
  | viewportMouseUp =>
      have hstep : (step st Ev.viewportMouseUp).1 =
          (fireWindowMouseUp (fireViewportMouseUp st).1).1 := rfl
      rw [hstep]
      rcases fireWindowMouseUp_draggables (fireViewportMouseUp st).1 with h | h
      · rw [h]
        exact fireViewportMouseUp_draggables st
      · exact Or.inr h
  | viewportMouseDown => exact fireViewportMouseDown_draggables st
  | windowMouseUp => exact fireWindowMouseUp_draggables st
  | keyDown => exact fireKeyDown_draggables st
  | blur => exact fireBlur_draggables st

theorem moveDraggableElement_uid (d : DraggableItem) (x y : Int) :
    (moveDraggableElement d x y).uid = d.uid := by
  cases hg : d.grabPoint <;> simp [moveDraggableElement, hg]

theorem moveDraggableElement_isDragging (d : DraggableItem) (x y : Int) :
    (moveDraggableElement d x y).isDragging = d.isDragging := by
  cases hg : d.grabPoint <;> simp [moveDraggableElement, hg]

theorem moveStep_count_item (x y : Int) (u : Nat) (st : EngineState)
    (d : DraggableItem) :
    ((if startThresholdPassed d x y then (beginItemDrag st d).2.2 else []).countP
      (isDraggingBroadcastFor u)) +
      (List.countP (fun r => r.uid == u && !r.isDragging)
        [if startThresholdPassed d x y then
          moveDraggableElement (beginItemDrag st d).2.1 x y else d]) ≤
      List.countP (fun r => r.uid == u && !r.isDragging) [d] := by
  by_cases hp : startThresholdPassed d x y
  · rw [if_pos hp, if_pos hp]
    by_cases hd : d.isDragging
    · rw [beginItemDrag_of_dragging st d hd]
      simp [List.countP_cons, isDraggingBroadcastFor, moveDraggableElement_uid,
        moveDraggableElement_isDragging, hd]
    · rw [beginItemDrag_snd_of_not st d (by simpa using hd)]
      simp only [List.countP_cons, List.countP_nil, isDraggingBroadcastFor,
        moveDraggableElement_uid, moveDraggableElement_isDragging,
        beginItemDrag_uid, beginItemDrag_isDragging]
      by_cases hu : d.uid == u <;> simp [hu, hd]
  · rw [if_neg hp, if_neg hp]
    simp

theorem moveFold_count (x y : Int) (u : Nat) (l : List DraggableItem) :
    ∀ (st : EngineState) (done : List DraggableItem) (bs : List Broadcast),
      ((l.foldl (moveStep x y) (st, done, bs)).2.2).countP (isDraggingBroadcastFor u) +
        pendingFor u ((l.foldl (moveStep x y) (st, done, bs)).2.1) ≤
      bs.countP (isDraggingBroadcastFor u) + pendingFor u done + pendingFor u l := by
  induction l with
  | nil =>
      intro st done bs
      simp [pendingFor]
  | cons d l ih =>
      intro st done bs
      rw [List.foldl_cons]
      have heta : moveStep x y (st, done, bs) d =
          ((moveStep x y (st, done, bs) d).1, (moveStep x y (st, done, bs) d).2.1,
            (moveStep x y (st, done, bs) d).2.2) := rfl
      have key := ih (moveStep x y (st, done, bs) d).1
        (moveStep x y (st, done, bs) d).2.1 (moveStep x y (st, done, bs) d).2.2
      rw [← heta] at key
      refine le_trans key ?_
      rw [moveStep_bs, moveStep_done]
      have hitem := moveStep_count_item x y u st d
      rw [show (d :: l) = [d] ++ l from rfl]
      simp only [pendingFor, List.countP_append] at hitem ⊢
      omega

theorem step_pending_nonmove (st : EngineState) (e : Ev)
    (he : abortEv e = true ∨ e = Ev.viewportMouseUp) (u : Nat) :
    ((step st e).2).countP (isDraggingBroadcastFor u) +
      pendingFor u (step st e).1.draggables ≤ pendingFor u st.draggables := by
  have h0 : ((step st e).2).countP (isDraggingBroadcastFor u) = 0 :=
    List.countP_eq_zero.mpr (fun b hb => by
      obtain ⟨r, rfl⟩ := step_nonmove_no_dragging st e he b hb
      simp [isDraggingBroadcastFor])
  rcases step_nonmove_draggables st e he with h | h
  · rw [h0, h]
    simp
  · rw [h0, h]
    simp [pendingFor]

theorem step_pending (st : EngineState) (e : Ev) (u : Nat) :
    ((step st e).2).countP (isDraggingBroadcastFor u) +
      pendingFor u (step st e).1.draggables ≤ pendingFor u st.draggables := by
  cases e with
  | move x y =>
      by_cases hm : st.moveSubscribed = true
      · have hstep : step st (Ev.move x y) = onViewportMouseMove st x y := by
          simp [step, hm]
        rw [hstep]
        by_cases h1 : isMouseOutsideViewport (scrollViewportAsNeeded x y st) x y = true
        · rw [onViewportMouseMove_outside st x y
            (by rwa [isMouseOutsideViewport_scroll] at h1)]
          simp [scrollViewportAsNeeded_draggables]
        · by_cases h2 : (dispOf (scrollViewportAsNeeded x y st) x y).x = 0 ∧
              (dispOf (scrollViewportAsNeeded x y st) x y).y = 0
          · rw [onViewportMouseMove_zero st x y (by simpa using h1) h2]
            simp [afterScroll_draggables]
          · rw [onViewportMouseMove_loop st x y (by simpa using h1) h2]
            rw [afterScroll_draggables]
            have key := moveFold_count x y u (afterScroll st x y).draggables
              (afterScroll st x y) [] []
            rw [afterScroll_draggables] at key
            simpa [pendingFor] using key
      · simp [step, hm, pendingFor]
  | viewportMouseUp => exact step_pending_nonmove st Ev.viewportMouseUp (Or.inr rfl) u
  | viewportMouseDown =>
      exact step_pending_nonmove st Ev.viewportMouseDown (Or.inl rfl) u
  | windowMouseUp => exact step_pending_nonmove st Ev.windowMouseUp (Or.inl rfl) u
  | keyDown => exact step_pending_nonmove st Ev.keyDown (Or.inl rfl) u
  | blur => exact step_pending_nonmove st Ev.blur (Or.inl rfl) u

theorem runFold_pending (u : Nat) (evs : List Ev) :
    ∀ (st : EngineState) (bs : List Broadcast),
      ((evs.foldl stepRun (st, bs)).2).countP (isDraggingBroadcastFor u) +
        pendingFor u ((evs.foldl stepRun (st, bs)).1.draggables) ≤
      bs.countP (isDraggingBroadcastFor u) + pendingFor u st.draggables := by
  induction evs with
  | nil =>
      intro st bs
      simp
  | cons e evs ih =>
      intro st bs
      rw [List.foldl_cons]
      have hs : stepRun (st, bs) e = ((step st e).1, bs ++ (step st e).2) := rfl
      rw [hs]
      refine le_trans (ih _ _) ?_
      rw [List.countP_append]
      have := step_pending st e u
      omega

theorem moveFold_dragging_passed (x y : Int) (l : List DraggableItem) :
    ∀ (st : EngineState) (done : List DraggableItem) (bs : List Broadcast)
      (b : Broadcast),
      b ∈ (l.foldl (moveStep x y) (st, done, bs)).2.2 →
      b ∈ bs ∨ ∃ r, b = Broadcast.dragging r ∧ startThresholdPassed r x y = true := by
  induction l with
  | nil =>
      intro st done bs b h
      exact Or.inl h
  | cons d l ih =>
      intro st done bs b h
      rw [List.foldl_cons] at h
      have heta : moveStep x y (st, done, bs) d =
          ((moveStep x y (st, done, bs) d).1, (moveStep x y (st, done, bs) d).2.1,
            (moveStep x y (st, done, bs) d).2.2) := rfl
      rw [heta] at h
      rcases ih _ _ _ b h with h2 | h2
      · rw [moveStep_bs] at h2
        rcases List.mem_append.mp h2 with h3 | h3
        · exact Or.inl h3
        · by_cases hp : startThresholdPassed d x y
          · rw [if_pos hp] at h3
            by_cases hd : d.isDragging
            · rw [beginItemDrag_of_dragging _ _ hd] at h3
              simp at h3
            · rw [beginItemDrag_snd_of_not _ _ (by simpa using hd)] at h3
              simp only [List.mem_singleton] at h3
              refine Or.inr ⟨_, h3, ?_⟩
              have hp2 := hp
              unfold startThresholdPassed at hp2 ⊢
              rw [beginItemDrag_mouseDownEvent, beginItemDrag_startThreshold]
              exact hp2
          · rw [if_neg hp] at h3
            simp at h3
      · exact Or.inr h2

theorem step_dragging_passed (st : EngineState) (x y : Int) (r : DraggableItem)
    (h : Broadcast.dragging r ∈ (step st (Ev.move x y)).2) :
    startThresholdPassed r x y = true := by
  by_cases hm : st.moveSubscribed = true
  · have hstep : step st (Ev.move x y) = onViewportMouseMove st x y := by
      simp [step, hm]
    rw [hstep] at h
    by_cases h1 : isMouseOutsideViewport (scrollViewportAsNeeded x y st) x y = true
    · rw [onViewportMouseMove_outside st x y
        (by rwa [isMouseOutsideViewport_scroll] at h1)] at h
      simp at h
    · by_cases h2 : (dispOf (scrollViewportAsNeeded x y st) x y).x = 0 ∧
          (dispOf (scrollViewportAsNeeded x y st) x y).y = 0
      · rw [onViewportMouseMove_zero st x y (by simpa using h1) h2] at h
        simp at h
      · rw [onViewportMouseMove_loop st x y (by simpa using h1) h2] at h
        rcases moveFold_dragging_passed x y _ _ _ _ _ h with h3 | h3
        · simp at h3
        · obtain ⟨r2, e1, e2⟩ := h3
          cases e1
          exact e2
  · simp [step, hm] at h

/-- Claim C1 (amended): startThresholdPassed is true exactly when the
absolute displacement from the origin mousedown reaches or exceeds the
threshold (non-strict) on either axis; and every dragging broadcast a
sampled move at (x, y) emits is for a record whose displacement at (x, y)
reaches or exceeds its threshold on some axis. -/
theorem c1_threshold_nonstrict :
    (∀ (d : DraggableItem) (x y : Int),
      startThresholdPassed d x y = true ↔
        (d.startThreshold ≤ |d.mouseDownEvent.x - x| ∨
          d.startThreshold ≤ |d.mouseDownEvent.y - y|)) ∧
    (∀ (st : EngineState) (x y : Int) (r : DraggableItem),
      Broadcast.dragging r ∈ (step st (Ev.move x y)).2 →
        r.startThreshold ≤ |r.mouseDownEvent.x - x| ∨
          r.startThreshold ≤ |r.mouseDownEvent.y - y|) := by
  have hiff : ∀ (d : DraggableItem) (x y : Int),
      startThresholdPassed d x y = true ↔
        (d.startThreshold ≤ |d.mouseDownEvent.x - x| ∨
          d.startThreshold ≤ |d.mouseDownEvent.y - y|) := by
    intro d x y
    simp [startThresholdPassed]
  exact ⟨hiff, fun st x y r h => (hiff r x y).mp (step_dragging_passed st x y r h)⟩

/-- Claim C1 witness: the primed sample state begins a drag on a move to
(30, 30) and the delivered record satisfies the non-strict bound. -/
theorem c1_witness :
    Broadcast.dragging primedBeginSnap ∈ (step primedState (Ev.move 30 30)).2 ∧
    (primedBeginSnap.startThreshold ≤ |primedBeginSnap.mouseDownEvent.x - 30| ∨
      primedBeginSnap.startThreshold ≤ |primedBeginSnap.mouseDownEvent.y - 30|) :=
  ⟨by decide, c1_threshold_nonstrict.2 primedState 30 30 primedBeginSnap (by decide)⟩

/-- Claim C2 (amended): on a processed move (inside the viewport, nonzero
displacement), every record relates to its successor by recQ: a record
whose threshold test passes at the move's coordinates ends up dragging with
its ghost exactly at (pointer minus grab point), while a record whose test
fails (including one already mid-drag whose pointer moved back inside the
threshold box) is left untouched; and across any dispatched input, a
dragging record that survives in the collection keeps its grab point
unchanged. -/
theorem c2_ghost_follows_pointer :
    (∀ (st : EngineState) (x y : Int),
      isMouseOutsideViewport (scrollViewportAsNeeded x y st) x y = false →
      ¬((dispOf (scrollViewportAsNeeded x y st) x y).x = 0 ∧
        (dispOf (scrollViewportAsNeeded x y st) x y).y = 0) →
      (∀ d ∈ st.draggables, recWF d) →
      List.Forall₂ (recQ x y) st.draggables (onViewportMouseMove st x y).1.draggables) ∧
    (∀ (st : EngineState) (e : Ev) (i : Nat) (g : Point)
        (h1 : i < st.draggables.length)
        (h2 : i < (step st e).1.draggables.length),
      (∀ d ∈ st.draggables, recWF d) →
      (st.draggables.get ⟨i, h1⟩).isDragging = true →
      (st.draggables.get ⟨i, h1⟩).grabPoint = some g →
      ((step st e).1.draggables.get ⟨i, h2⟩).grabPoint = some g) := by
  have hloop : ∀ (st : EngineState) (x y : Int),
      isMouseOutsideViewport (scrollViewportAsNeeded x y st) x y = false →
      ¬((dispOf (scrollViewportAsNeeded x y st) x y).x = 0 ∧
        (dispOf (scrollViewportAsNeeded x y st) x y).y = 0) →
      (∀ d ∈ st.draggables, recWF d) →
      ∃ l2, (onViewportMouseMove st x y).1.draggables = l2 ∧
        List.Forall₂ (recQ x y) st.draggables l2 := by
    intro st x y hin hdisp hwf
    obtain ⟨l2, he, hf⟩ := moveFold_forall2 x y (afterScroll st x y).draggables
      (afterScroll st x y) [] [] (by rw [afterScroll_draggables]; exact hwf)
    simp only [List.nil_append] at he
    rw [afterScroll_draggables] at hf
    refine ⟨l2, ?_, hf⟩
    rw [onViewportMouseMove_loop st x y hin hdisp]
    exact he
  constructor
  · intro st x y hin hdisp hwf
    obtain ⟨l2, he, hf⟩ := hloop st x y hin hdisp hwf
    rw [he]
    exact hf
  · intro st e i g h1 h2 hwf hdrag hg
    cases e with
    | move x y =>
        by_cases hm : st.moveSubscribed = true
        · have hstep : step st (Ev.move x y) = onViewportMouseMove st x y := by
            simp [step, hm]
          by_cases hout : isMouseOutsideViewport (scrollViewportAsNeeded x y st) x y = true
          · have hl : (step st (Ev.move x y)).1.draggables = st.draggables := by
              rw [hstep, onViewportMouseMove_outside st x y
                (by rwa [isMouseOutsideViewport_scroll] at hout)]
              exact scrollViewportAsNeeded_draggables x y st
            rw [get_congr hl i h2 h1]
            exact hg
          · by_cases hzero : (dispOf (scrollViewportAsNeeded x y st) x y).x = 0 ∧
                (dispOf (scrollViewportAsNeeded x y st) x y).y = 0
            · have hl : (step st (Ev.move x y)).1.draggables = st.draggables := by
                rw [hstep, onViewportMouseMove_zero st x y (by simpa using hout) hzero]
                exact afterScroll_draggables st x y
              rw [get_congr hl i h2 h1]
              exact hg
            · obtain ⟨l2, he, hf⟩ := hloop st x y (by simpa using hout) hzero hwf
              have hl : (step st (Ev.move x y)).1.draggables = l2 := by
                rw [hstep]
                exact he
              have h2l : i < l2.length := by
                rw [← hl]
                exact h2
              rw [get_congr hl i h2 h2l]
              have hQ := forall2_get hf i h1 h2l
              by_cases hp : startThresholdPassed (st.draggables.get ⟨i, h1⟩) x y
              · unfold recQ at hQ
                rw [if_pos hp] at hQ
                obtain ⟨g2, gh, hQ1, hQ2, hQ3, hQ4, hQ5, hQ6, hQ7⟩ := hQ
                rw [hQ7 hdrag]
                exact hg
              · unfold recQ at hQ
                rw [if_neg hp] at hQ
                rw [hQ]
                exact hg
        · have hl : (step st (Ev.move x y)).1.draggables = st.draggables := by
            simp [step, hm]
          rw [get_congr hl i h2 h1]
          exact hg
    | viewportMouseUp =>
        rcases step_nonmove_draggables st Ev.viewportMouseUp (Or.inr rfl) with hl | hl
        · rw [get_congr hl i h2 h1]
          exact hg
        · exact absurd h2 (by rw [hl]; simp)
    | viewportMouseDown =>
        rcases step_nonmove_draggables st Ev.viewportMouseDown (Or.inl rfl) with hl | hl
        · rw [get_congr hl i h2 h1]
          exact hg
        · exact absurd h2 (by rw [hl]; simp)
    | windowMouseUp =>
        rcases step_nonmove_draggables st Ev.windowMouseUp (Or.inl rfl) with hl | hl
        · rw [get_congr hl i h2 h1]
          exact hg
        · exact absurd h2 (by rw [hl]; simp)
    | keyDown =>
        rcases step_nonmove_draggables st Ev.keyDown (Or.inl rfl) with hl | hl
        · rw [get_congr hl i h2 h1]
          exact hg
        · exact absurd h2 (by rw [hl]; simp)
    | blur =>
        rcases step_nonmove_draggables st Ev.blur (Or.inl rfl) with hl | hl
        · rw [get_congr hl i h2 h1]
          exact hg
        · exact absurd h2 (by rw [hl]; simp)

/-- Claim C2 witness: the amended per-move relation evaluated on the primed
sample state with a processed move to (30, 40). -/
theorem c2_witness :
    (isMouseOutsideViewport (scrollViewportAsNeeded 30 40 primedState) 30 40 = false ∧
      ¬((dispOf (scrollViewportAsNeeded 30 40 primedState) 30 40).x = 0 ∧
        (dispOf (scrollViewportAsNeeded 30 40 primedState) 30 40).y = 0) ∧
      (∀ d ∈ primedState.draggables, recWF d)) ∧
    List.Forall₂ (recQ 30 40) primedState.draggables
      (onViewportMouseMove primedState 30 40).1.draggables :=
  ⟨⟨by decide, by decide, by decide⟩,
    c2_ghost_follows_pointer.1 primedState 30 40 (by decide) (by decide) (by decide)⟩

/-- Claim C8: registerDraggable appends exactly one record carrying the
supplied origin event, element, payload, class strings and threshold, with
isDragging false and cancelled false; over any subsequent input sequence
the registration's uid is delivered on the dragging Subject at most once;
and beginItemDrag on an already-dragging record changes nothing and emits
nothing. -/
theorem c8_register_and_single_begin :
    (∀ (st : EngineState) (event : Point) (el : Elem) (data : Nat)
        (dgc ddc : String) (t : Int),
      (registerDraggable st event el data dgc ddc t).draggables =
        st.draggables ++
          [{ uid := st.nextUid, el := el, dragEl := none, data := data,
             draggedClass := ddc, draggingClass := dgc, mouseDownEvent := event,
             pos := none, grabPoint := none, startThreshold := t,
             isDragging := false, cancelled := some false }]) ∧
    (∀ (st : EngineState) (event : Point) (el : Elem) (data : Nat)
        (dgc ddc : String) (t : Int) (evs : List Ev),
      (∀ d ∈ st.draggables, d.uid < st.nextUid) →
      ((runEvents (registerDraggable st event el data dgc ddc t) evs).2).countP
        (isDraggingBroadcastFor st.nextUid) ≤ 1) ∧
    (∀ (st : EngineState) (d : DraggableItem), d.isDragging = true →
      beginItemDrag st d = (st, d, [])) := by
  have hreg : ∀ (st : EngineState) (event : Point) (el : Elem) (data : Nat)
      (dgc ddc : String) (t : Int),
      (registerDraggable st event el data dgc ddc t).draggables =
        st.draggables ++
          [{ uid := st.nextUid, el := el, dragEl := none, data := data,
             draggedClass := ddc, draggingClass := dgc, mouseDownEvent := event,
             pos := none, grabPoint := none, startThreshold := t,
             isDragging := false, cancelled := some false }] := by
    intro st event el data dgc ddc t
    simp [registerDraggable, activate, dragStart]
  refine ⟨hreg, ?_, fun st d h => beginItemDrag_of_dragging st d h⟩
  intro st event el data dgc ddc t evs hfresh
  have hpend : pendingFor st.nextUid
      (registerDraggable st event el data dgc ddc t).draggables ≤ 1 := by
    rw [hreg]
    unfold pendingFor
    rw [List.countP_append]
    have h0 : st.draggables.countP
        (fun d => d.uid == st.nextUid && !d.isDragging) = 0 :=
      List.countP_eq_zero.mpr (fun d hd => by
        have hlt := hfresh d hd
        simp only [Bool.and_eq_true, beq_iff_eq]
        intro hcon
        exact absurd hcon.1 (Nat.ne_of_lt hlt))
    rw [h0]
    simp
  have key := runFold_pending st.nextUid evs
    (registerDraggable st event el data dgc ddc t) []
  simp only [List.countP_nil] at key
  unfold runEvents
  omega

/-- Claim C8 witness: a registration on the initial state followed by three
sampled moves (the second begins the drag, the third merely repositions)
yields at most one dragging broadcast for the new uid. -/
theorem c8_witness :
    (∀ d ∈ initialState.draggables, d.uid < initialState.nextUid) ∧
    ((runEvents (registerDraggable initialState { x := 0, y := 0 } sampleElem 7 "" "" 10)
      [Ev.move 5 5, Ev.move 30 30, Ev.move 31 31]).2).countP
      (isDraggingBroadcastFor initialState.nextUid) ≤ 1 :=
  ⟨by decide,
    c8_register_and_single_begin.2.1 initialState { x := 0, y := 0 } sampleElem 7 "" "" 10
      [Ev.move 5 5, Ev.move 30 30, Ev.move 31 31] (by decide)⟩

/-- Claim C10: a sampled move arriving while the last mouse position is the
empty reset value (which is how registration, via activate and dragStart,
leaves it) coerces its displacement to (0, 0) and is discarded: no record
changes and nothing is emitted, however far the pointer travelled; the
concrete trace shows the second qualifying move then beginning the drag. -/
theorem c10_first_move_ignored :
    (∀ (st : EngineState) (x y : Int), st.lastMousePos = none →
      (step st (Ev.move x y)).1.draggables = st.draggables ∧
      (step st (Ev.move x y)).2 = []) ∧
    (∀ (st : EngineState) (event : Point) (el : Elem) (data : Nat)
        (dgc ddc : String) (t : Int),
      (registerDraggable st event el data dgc ddc t).lastMousePos = none) ∧
    ((runEvents registeredState [Ev.move 5 5, Ev.move 30 30]).1.draggables.map
      (fun d => d.isDragging)) = [true] := by
  refine ⟨?_, ?_, by decide⟩
  · intro st x y h
    by_cases hm : st.moveSubscribed = true
    · have hstep : step st (Ev.move x y) = onViewportMouseMove st x y := by
        simp [step, hm]
      rw [hstep]
      have hlast : (scrollViewportAsNeeded x y st).lastMousePos = none := by
        rw [scrollViewportAsNeeded_lastMousePos]
        exact h
      by_cases h1 : isMouseOutsideViewport (scrollViewportAsNeeded x y st) x y = true
      · rw [onViewportMouseMove_outside st x y
          (by rwa [isMouseOutsideViewport_scroll] at h1)]
        exact ⟨scrollViewportAsNeeded_draggables x y st, rfl⟩
      · have hdisp : (dispOf (scrollViewportAsNeeded x y st) x y).x = 0 ∧
            (dispOf (scrollViewportAsNeeded x y st) x y).y = 0 := by
          simp [dispOf, hlast]
        rw [onViewportMouseMove_zero st x y (by simpa using h1) hdisp]
        exact ⟨afterScroll_draggables st x y, rfl⟩
    · simp [step, hm]
  · intro st event el data dgc ddc t
    simp [registerDraggable, activate, dragStart]

/-- Claim C10 witness: the freshly registered state has the empty last mouse
position and its first sampled move, at (50, 50), changes no record and
emits nothing. -/
theorem c10_witness :
    registeredState.lastMousePos = none ∧
    ((step registeredState (Ev.move 50 50)).1.draggables = registeredState.draggables ∧
      (step registeredState (Ev.move 50 50)).2 = []) :=
  ⟨by decide, c10_first_move_ignored.1 registeredState 50 50 (by decide)⟩

theorem foldFilter_sub (ts : List String) :
    ∀ acc : List String,
      ts.foldl (fun a c => a.filter (fun s => !(s == c))) acc ⊆ acc := by
  induction ts with
  | nil =>
      intro acc a h
      exact h
  | cons t ts ih =>
      intro acc
      rw [List.foldl_cons]
      exact fun a h => (List.filter_sublist _).subset (ih _ h)

theorem removeClasses_subset (elc : List String) (s : String) :
    removeClasses elc s ⊆ elc := by
  unfold removeClasses
  split_ifs
  · exact fun a h => h
  · exact foldFilter_sub _ _

theorem foldFilter_not_mem (ts : List String) :
    ∀ (acc : List String) (c : String), c ∈ ts →
      c ∉ ts.foldl (fun a t => a.filter (fun s => !(s == t))) acc := by
  induction ts with
  | nil =>
      intro acc c h
      simp at h
  | cons t ts ih =>
      intro acc c hc
      rw [List.foldl_cons]
      by_cases hmem : c ∈ ts
      · exact ih _ c hmem
      · have hct : c = t := by
          rcases List.mem_cons.mp hc with h | h
          · exact h
          · exact absurd h hmem
        subst hct
        intro hcon
        have h2 := foldFilter_sub ts _ hcon
        rw [List.mem_filter] at h2
        simp at h2

theorem removeClasses_not_mem (elc : List String) (s c : String) (hs : s ≠ "")
    (hc : c ∈ classTokens s) : c ∉ removeClasses elc s := by
  unfold removeClasses
  rw [if_neg hs]
  exact foldFilter_not_mem _ _ c hc

/-- Claim C9: on each dropping broadcast the droppable directive emits
exactly one final drop payload holding the record's application payload,
the target's own identity, the pointer-over-target flag of drop time and
the record's cancelled flag, after which the internal isDropTarget flag is
false and no token of either class set remains on the host element. -/
theorem c9_drop_notification :
    ∀ (st : DroppableState) (d : DraggableItem),
      (onDropping st d).2 =
        [{ draggable := d.data, droppable := st.droppable,
           isDropTarget := st.isDropTarget, cancelled := d.cancelled }] ∧
      (onDropping st d).1.isDropTarget = false ∧
      (∀ c : String, c ≠ "" →
        c ∈ classTokens st.droppableClasses ∨ c ∈ classTokens st.notDroppableClasses →
        c ∉ (onDropping st d).1.elClasses) := by
  intro st d
  refine ⟨rfl, rfl, ?_⟩
  intro c hc hmem
  have helc : (onDropping st d).1.elClasses =
      removeClasses (removeClasses st.elClasses st.droppableClasses)
        st.notDroppableClasses := rfl
  rw [helc]
  rcases hmem with h | h
  · by_cases hs : st.droppableClasses = ""
    · rw [hs] at h
      have : c = "" := by simpa [classTokens, splitChars] using h
      exact absurd this hc
    · intro hcon
      exact removeClasses_not_mem _ _ c hs h (removeClasses_subset _ _ hcon)
  · by_cases hs : st.notDroppableClasses = ""
    · rw [hs] at h
      have : c = "" := by simpa [classTokens, splitChars] using h
      exact absurd this hc
    · exact removeClasses_not_mem _ _ c hs h

/-- Claim C9 witness: the sample droppable handling the aborted drop emits
the single expected payload, resets its hit flag, and both class sets are
gone from the element. -/
theorem c9_witness :
    (("ok" : String) ≠ "" ∧
      ("ok" ∈ classTokens sampleDroppable.droppableClasses ∨
        "ok" ∈ classTokens sampleDroppable.notDroppableClasses)) ∧
    ((onDropping sampleDroppable abortedSnap).2 =
      [{ draggable := abortedSnap.data, droppable := sampleDroppable.droppable,
         isDropTarget := sampleDroppable.isDropTarget,
         cancelled := abortedSnap.cancelled }] ∧
      (onDropping sampleDroppable abortedSnap).1.isDropTarget = false ∧
      ("ok" : String) ∉ (onDropping sampleDroppable abortedSnap).1.elClasses) :=
  ⟨⟨by decide, by decide⟩,
    ⟨(c9_drop_notification sampleDroppable abortedSnap).1,
      (c9_drop_notification sampleDroppable abortedSnap).2.1,
      (c9_drop_notification sampleDroppable abortedSnap).2.2 ("ok") (by decide)
        (by decide)⟩⟩

end DragDrop
